import Mathlib

/-!
Shallow embedding of the coordinate-conversion core of `o-` (src/main.rs).

Machine `f64` arithmetic is embedded as exact rational arithmetic (`ℚ`):
every float operation the embedded code paths perform on the values the
theorems below reason about (sums, differences, products and quotients of
integers bounded by about 10^7, with divisor 5000) is exact in IEEE double
precision, so the rational model computes the same values the Rust program
does. The special values NaN and the two infinities, which matter only for
`Hemisphere::from_lat`, are modelled explicitly by the `F64` wrapper type.
Rust's saturating float-to-integer `as` casts are modelled by `truncQ`,
`i16cast` and `u8cast`. Rust panics are modelled as `Option.none` /
`Except.error`.
-/

/-- Hemisphere: the two-valued North/South classification from src/main.rs. -/
inductive Hemisphere where
  | North : Hemisphere
  | South : Hemisphere
deriving DecidableEq, Repr

/-- Model of the Rust `f64` values relevant to `Hemisphere::from_lat`:
a finite value (an exact rational), NaN, or a signed infinity. -/
inductive F64 where
  | num : ℚ → F64
  | nan : F64
  | inf : F64
  | negInf : F64
deriving DecidableEq

/-- IEEE-754 comparison `v < 0.0` on an f64 value: false for NaN,
false for +inf, true for -inf, and the numeric comparison otherwise. -/
def F64.lt_zero : F64 → Bool
  | F64.num q => decide (q < 0)
  | F64.nan => false
  | F64.inf => false
  | F64.negInf => true

/-- `Hemisphere::from_lat`: `if *lat < 0.0 { South } else { North }`. -/
def Hemisphere.from_lat (lat : F64) : Hemisphere :=
  if lat.lt_zero then Hemisphere.South else Hemisphere.North

/-- The floor of a rational, computed from its reduced fraction; equal to
`Int.floor` (see `floorQ_eq`) but kernel-reducible. -/
def floorQ (q : ℚ) : ℤ := q.num / q.den

/-- The ceiling of a rational; equal to `Int.ceil` (see `ceilQ_eq`). -/
def ceilQ (q : ℚ) : ℤ := -floorQ (-q)

/-- Truncation toward zero of a rational, as Rust float-to-int casts do
before saturation. -/
def truncQ (q : ℚ) : ℤ := if 0 ≤ q then floorQ q else ceilQ q

/-- Rust `as i16` on an f64: truncate toward zero, saturating to
[-32768, 32767]. (NaN, which casts to 0, never reaches this function in
the embedded code paths.) -/
def i16cast (q : ℚ) : ℤ := max (-32768) (min 32767 (truncQ q))

/-- Rust `as u8` on an f64: truncate toward zero, saturating to [0, 255]. -/
def u8cast (q : ℚ) : ℕ := (max 0 (min 255 (truncQ q))).toNat

/-- `lonlat_to_utm_zone`: zone `(((lon + 180.0) / 6.0).floor() + 1.0) as u8`
and hemisphere `Hemisphere::from_lat(&lat)`. -/
def lonlat_to_utm_zone (lon lat : ℚ) : ℕ × Hemisphere :=
  (u8cast (((floorQ ((lon + 180) / 6) : ℤ) : ℚ) + 1), Hemisphere.from_lat (F64.num lat))

/-- `UTMCoord`: zone, hemisphere, easting `x`, northing `y`. -/
structure UTMCoord where
  zone : ℕ
  hemi : Hemisphere
  x : ℚ
  y : ℚ
deriving DecidableEq

/-- `LonLatCoord`: a longitude/latitude pair. -/
structure LonLatCoord where
  lon : ℚ
  lat : ℚ
deriving DecidableEq

/-- `MGSCoord`: zone and the 12-entry quadkey array `[u8; 12]`. -/
structure MGSCoord where
  zone : ℕ
  key : Fin 12 → ℕ

instance : DecidableEq MGSCoord := fun a b =>
  decidable_of_iff (a.zone = b.zone ∧ List.ofFn a.key = List.ofFn b.key)
    (by cases a; cases b; simp only [MGSCoord.mk.injEq, List.ofFn_inj])

/-- `LonLatCoord::new`: fails unless lon is in [-180, 180] and lat is in
[-90, 90] (Rust `RangeInclusive::contains`, both bounds inclusive). -/
def LonLatCoord.new (longitude latitude : ℚ) : Except String LonLatCoord :=
  if ¬(-180 ≤ longitude ∧ longitude ≤ 180) ∨ ¬(-90 ≤ latitude ∧ latitude ≤ 90) then
    Except.error "Expected lon and lat in ranges (-180..180, -90..90)"
  else
    Except.ok ⟨longitude, latitude⟩

/-- Rust `char::to_digit(10)`: `some` of the value for ASCII decimal
digits, `none` otherwise. -/
def char_to_digit10 (c : Char) : Option ℕ :=
  if '0' ≤ c ∧ c ≤ '9' then some (c.toNat - '0'.toNat) else none

/-- `MGSCoord::from_u8_and_str`: starts from `[0; 12]` and writes
`c.to_digit(10).expect(..)` at each character position. The `expect`
panic (on a non-digit) and the out-of-bounds write (on a string longer
than 12 characters) are modelled as `none`. Strings shorter than 12
leave the remaining entries 0, as in the Rust array initialization. -/
def MGSCoord.from_u8_and_str (zone : ℕ) (key_string : List Char) : Option MGSCoord :=
  if key_string.length ≤ 12 then
    match key_string.mapM char_to_digit10 with
    | some ds => some ⟨zone, fun i => ds.getD i 0⟩
    | none => none
  else
    none

/-- The body of the decode loop of `impl From<&MGSCoord> for UTMCoord`:
`mask = 1 << (11 - z)`, then `ix |= mask` for digits 1 and 3 and
`iy |= mask` for digits 2 and 3; any other digit panics (`none`). -/
def mgsStep (key : Fin 12 → ℕ) (p : ℕ × ℕ) (z : Fin 12) : Option (ℕ × ℕ) :=
  let mask : ℕ := 2 ^ (11 - z.val)
  match key z with
  | 0 => some p
  | 1 => some (p.1 ||| mask, p.2)
  | 2 => some (p.1, p.2 ||| mask)
  | 3 => some (p.1 ||| mask, p.2 ||| mask)
  | _ => none

/-- The decode loop of `impl From<&MGSCoord> for UTMCoord`: accumulate
`(ix, iy)` from `(0, 0)` over `z = 0, ..., 11`. The Rust accumulators are
`i16`, but only bits 0..11 are ever set, so they stay in [0, 4095] and are
modelled as `ℕ`. -/
def gridOfKey (key : Fin 12 → ℕ) : Option (ℕ × ℕ) :=
  (List.finRange 12).foldlM (mgsStep key) (0, 0)

/-- `impl From<&MGSCoord> for UTMCoord`: rebuild `(ix, iy)` from the key,
move the origin to the zone center, classify the hemisphere from the sign
of the grid offset, scale to meters, and re-apply the false offsets. -/
def UTMCoord.fromMGS (source : MGSCoord) : Option UTMCoord :=
  match gridOfKey source.key with
  | none => none
  | some (ix, iy) =>
    let x0 : ℚ := (ix : ℚ) - 2048
    let y0 : ℚ := 2048 - (iy : ℚ)
    let hemi := Hemisphere.from_lat (F64.num y0)
    let x1 : ℚ := x0 * 5000
    let y1 : ℚ := y0 * 5000
    let x2 : ℚ := x1 + 500000
    let y2 : ℚ := if y1 < 0 then y1 + 10000000 else y1
    some { zone := source.zone, hemi := hemi, x := x2, y := y2 }

/-- The grid-index computation of `impl From<&UTMCoord> for MGSCoord`:
remove the false easting (and, for South, the false northing), scale to
5 km cells, and cast `(x + 2048.0) as i16` and `(2048.0 - y) as i16`. -/
def UTMCoord.gridIndices (source : UTMCoord) : ℤ × ℤ :=
  let x0 : ℚ := source.x - 500000
  let y0 : ℚ := if source.hemi = Hemisphere.South then source.y - 10000000 else source.y
  let x : ℚ := x0 / 5000
  let y : ℚ := y0 / 5000
  (i16cast (x + 2048), i16cast (2048 - y))

/-- Rust `ix & mask` on an `i16` accumulator with a nonnegative mask,
via the 16-bit two's complement image of `ix`. -/
def i16_and_mask (ix : ℤ) (mask : ℕ) : ℕ := (ix % 65536).toNat &&& mask

/-- `impl From<&UTMCoord> for MGSCoord`: each key digit adds 1 when
`ix & mask > 0` and 2 when `iy & mask > 0`, with `mask = 1 << (11 - z)`. -/
def MGSCoord.fromUTM (source : UTMCoord) : MGSCoord :=
  let gi := source.gridIndices
  { zone := source.zone
    key := fun z =>
      let mask : ℕ := 2 ^ (11 - z.val)
      (if 0 < i16_and_mask gi.1 mask then 1 else 0) +
        (if 0 < i16_and_mask gi.2 mask then 2 else 0) }

/-- `impl From<&LonLatCoord> for UTMCoord`, with the external proj
capability abstracted as a function from (zone, hemisphere, point) to an
optional projected point. `none` models the unwrapped proj failure. -/
def UTMCoord.fromLonLat (proj : ℕ → Hemisphere → ℚ × ℚ → Option (ℚ × ℚ))
    (source : LonLatCoord) : Option UTMCoord :=
  match proj (lonlat_to_utm_zone source.lon source.lat).1
      (lonlat_to_utm_zone source.lon source.lat).2 (source.lon, source.lat) with
  | some pt =>
    some ⟨(lonlat_to_utm_zone source.lon source.lat).1,
      (lonlat_to_utm_zone source.lon source.lat).2, pt.1, pt.2⟩
  | none => none

/-- `impl From<&UTMCoord> for LonLatCoord`, with the inverse proj
capability abstracted as above; proj failure and an out-of-bounds
`LonLatCoord::new` result both panic in the source (`none` here). -/
def LonLatCoord.fromUTM (proj : ℕ → Hemisphere → ℚ × ℚ → Option (ℚ × ℚ))
    (source : UTMCoord) : Option LonLatCoord :=
  match proj source.zone source.hemi (source.x, source.y) with
  | some pt => (LonLatCoord.new pt.1 pt.2).toOption
  | none => none

/-- `make_message`: from the geographic value, derive the UTM coordinate
and from it the MGS coordinate; the output triple carries the three
displayed values. -/
def make_message (projF : ℕ → Hemisphere → ℚ × ℚ → Option (ℚ × ℚ))
    (ll : LonLatCoord) : Option (LonLatCoord × UTMCoord × MGSCoord) :=
  match UTMCoord.fromLonLat projF ll with
  | some utm => some (ll, utm, MGSCoord.fromUTM utm)
  | none => none

/-- The conversion chain of `from_mgs` after parsing: MGS input goes
MGS -> UTM -> lonlat, then `make_message` re-derives UTM and MGS. -/
def from_mgs (projF projB : ℕ → Hemisphere → ℚ × ℚ → Option (ℚ × ℚ))
    (mgs : MGSCoord) : Option (LonLatCoord × UTMCoord × MGSCoord) :=
  match UTMCoord.fromMGS mgs with
  | some utm =>
    match LonLatCoord.fromUTM projB utm with
    | some ll => make_message projF ll
    | none => none
  | none => none

/-- The conversion chain of `from_utm` after parsing: UTM input goes
UTM -> lonlat, then `make_message` re-derives UTM and MGS. -/
def from_utm (projF projB : ℕ → Hemisphere → ℚ × ℚ → Option (ℚ × ℚ))
    (utm : UTMCoord) : Option (LonLatCoord × UTMCoord × MGSCoord) :=
  match LonLatCoord.fromUTM projB utm with
  | some ll => make_message projF ll
  | none => none

/-- The conversion chain of `from_ll` after parsing: validate the
geographic pair, then `make_message`. A validation error produces no
output. -/
def from_ll (projF : ℕ → Hemisphere → ℚ × ℚ → Option (ℚ × ℚ))
    (lon lat : ℚ) : Option (LonLatCoord × UTMCoord × MGSCoord) :=
  match LonLatCoord.new lon lat with
  | Except.ok ll => make_message projF ll
  | Except.error _ => none

/-- Rust `str::parse::<u8>` on a character list: an optional leading `+`,
then at least one decimal digit, value at most 255. -/
def parse_u8 (cs : List Char) : Option ℕ :=
  let ds := match cs with
    | '+' :: rest => rest
    | _ => cs
  match ds.mapM char_to_digit10 with
  | some digits =>
    if digits.isEmpty then none
    else
      let v := digits.foldl (fun acc d => acc * 10 + d) 0
      if v ≤ 255 then some v else none
  | none => none

/-- The zone-token parsing of `from_utm`: length must be 1..3; if the last
character is `N` or `S` the prefix before it is the zone and the letter the
hemisphere (the Rust `Hemisphere::from_char(..).unwrap()` is infallible in
that branch); otherwise the whole token is the zone and the hemisphere
defaults to North. -/
def parse_zone_hemi (zone_string : List Char) : Except String (ℕ × Hemisphere) :=
  if 1 ≤ zone_string.length ∧ zone_string.length ≤ 3 then
    if zone_string.getLastD ' ' = 'N' ∨ zone_string.getLastD ' ' = 'S' then
      match parse_u8 zone_string.dropLast with
      | some zone =>
        Except.ok (zone,
          if zone_string.getLastD ' ' = 'N' then Hemisphere.North else Hemisphere.South)
      | none => Except.error "Expected an integer UTM zone (with optional N or S)."
    else
      match parse_u8 zone_string with
      | some zone => Except.ok (zone, Hemisphere.North)
      | none => Except.error "Expected a UTM zone like 1, 23N, or 42S."
  else
    Except.error "Expected a UTM zone like 1, 23N, or 42S."

/-- Whether an `Except` value is a success. -/
def exceptOk {α : Type} (e : Except String α) : Bool :=
  match e with
  | Except.ok _ => true
  | Except.error _ => false

/-- The pure ix-accumulator of the decode loop of
`impl From<&MGSCoord> for UTMCoord`: set bit `11 - z` for digits 1 and 3. -/
def foldIx (key : Fin 12 → ℕ) (L : List (Fin 12)) (a : ℕ) : ℕ :=
  L.foldl (fun acc z => if key z = 1 ∨ key z = 3 then acc ||| 2 ^ (11 - z.val) else acc) a

/-- The pure iy-accumulator of the decode loop of
`impl From<&MGSCoord> for UTMCoord`: set bit `11 - z` for digits 2 and 3. -/
def foldIy (key : Fin 12 → ℕ) (L : List (Fin 12)) (b : ℕ) : ℕ :=
  L.foldl (fun acc z => if key z = 2 ∨ key z = 3 then acc ||| 2 ^ (11 - z.val) else acc) b

/-- The UTM coordinate `UTMCoord.fromMGS` builds from grid indices (A, B):
origin moved to the zone center, hemisphere from the sign of the grid
offset, scaled to meters, false offsets re-applied. -/
def decodedUTM (zone A B : ℕ) : UTMCoord :=
  { zone := zone
    hemi := Hemisphere.from_lat (F64.num (2048 - (B : ℚ)))
    x := ((A : ℚ) - 2048) * 5000 + 500000
    y := if (2048 - (B : ℚ)) * 5000 < 0 then (2048 - (B : ℚ)) * 5000 + 10000000
         else (2048 - (B : ℚ)) * 5000 }

/-- A projection stand-in that sends every point to the origin; used to
instantiate the abstract proj capability in witnesses. -/
def projZero : ℕ → Hemisphere → ℚ × ℚ → Option (ℚ × ℚ) := fun _ _ _ => some (0, 0)

/-- An MGS input carrying the non-canonical zone 99, for the
canonicalization witness. -/
def mgsInput99 : MGSCoord := ⟨99, fun _ => 0⟩

/-- A UTM input carrying the non-canonical zone 99, for the
canonicalization witness. -/
def utmInput99 : UTMCoord := ⟨99, Hemisphere.North, 0, 0⟩

/-- The output triple both canonicalization-witness pipelines produce when
the projection stand-in maps everything to the origin. -/
def rZero : LonLatCoord × UTMCoord × MGSCoord :=
  (⟨0, 0⟩, ⟨31, Hemisphere.North, 0, 0⟩,
   ⟨31, fun i => [2, 1, 1, 1, 1, 0, 0, 1, 1, 1, 0, 0].getD i 0⟩)

/-- The MGS cell 14/033113131312 from the worked example in `help()`. -/
def mgsW : MGSCoord := ⟨14, fun i => [0, 3, 3, 1, 1, 3, 1, 3, 1, 3, 1, 2].getD i 0⟩

/-- A valid in-zone UTM coordinate close to the east edge of its 5 km
cell: zone 14 North, easting 494999, northing 2133666. -/
def utmC3 : UTMCoord := ⟨14, Hemisphere.North, 494999, 2133666⟩

/-- A finite UTM input whose shifted grid coordinate `x + 2048` is the
negative non-integer -0.5: zone 14 North, easting -9742500. -/
def utmC9 : UTMCoord := ⟨14, Hemisphere.North, -9742500, 2133666⟩

/-- A valid in-zone UTM coordinate with nonnegative shifted grid
coordinates, for the amended grid-index witness. -/
def utmC9w : UTMCoord := ⟨14, Hemisphere.North, 494999, 2133666⟩

-- ======================================================================
-- Helper lemmas
-- ======================================================================

lemma floorQ_eq (q : ℚ) : floorQ q = ⌊q⌋ := (Rat.floor_def).symm

lemma ceilQ_eq (q : ℚ) : ceilQ q = ⌈q⌉ := by
  rw [ceilQ, floorQ_eq, Int.floor_neg, neg_neg]

lemma from_lat_num (q : ℚ) :
    Hemisphere.from_lat (F64.num q) = if q < 0 then Hemisphere.South else Hemisphere.North := by
  unfold Hemisphere.from_lat F64.lt_zero
  by_cases h : q < 0 <;> simp [h]

lemma i16cast_eq_floor {q : ℚ} (h0 : 0 ≤ q) (h1 : q < 32768) : i16cast q = ⌊q⌋ := by
  unfold i16cast truncQ
  rw [if_pos h0, floorQ_eq]
  have hf0 : (0 : ℤ) ≤ ⌊q⌋ := Int.floor_nonneg.mpr h0
  have hf1 : ⌊q⌋ < 32768 := Int.floor_lt.mpr (by exact_mod_cast h1)
  rw [min_eq_right (by omega), max_eq_right (by omega)]

lemma i16cast_natCast (n : ℕ) (h : n ≤ 32767) : i16cast (n : ℚ) = n := by
  have h0 : (0 : ℚ) ≤ (n : ℚ) := by positivity
  have h1 : ((n : ℚ)) < 32768 := by exact_mod_cast Nat.lt_succ_of_le h
  rw [i16cast_eq_floor h0 h1, Int.floor_natCast]

lemma foldlM_mgsStep_eq (key : Fin 12 → ℕ) (L : List (Fin 12)) (a b : ℕ)
    (hk : ∀ z ∈ L, key z ≤ 3) :
    L.foldlM (mgsStep key) (a, b) = some (foldIx key L a, foldIy key L b) := by
  induction L generalizing a b with
  | nil => simp [foldIx, foldIy]
  | cons z L ih =>
    have hz : key z ≤ 3 := hk z (by simp)
    have hrest : ∀ w ∈ L, key w ≤ 3 := fun w hw => hk w (by simp [hw])
    have h4 : key z = 0 ∨ key z = 1 ∨ key z = 2 ∨ key z = 3 := by omega
    rcases h4 with h | h | h | h <;>
      simp [List.foldlM_cons, mgsStep, h, foldIx, foldIy, List.foldl_cons, ih _ _ hrest]

lemma foldIx_testBit (key : Fin 12 → ℕ) (L : List (Fin 12)) (a : ℕ) (j : ℕ) :
    (foldIx key L a).testBit j =
      (a.testBit j ||
        L.any fun z => decide (key z = 1 ∨ key z = 3) && decide (11 - z.val = j)) := by
  induction L generalizing a with
  | nil => simp [foldIx]
  | cons z L ih =>
    simp only [foldIx, List.foldl_cons, List.any_cons] at *
    rw [ih]
    by_cases hz : key z = 1 ∨ key z = 3
    · simp [hz, Nat.testBit_or, Nat.testBit_two_pow, Bool.or_assoc]
    · simp [hz]

lemma foldIy_testBit (key : Fin 12 → ℕ) (L : List (Fin 12)) (b : ℕ) (j : ℕ) :
    (foldIy key L b).testBit j =
      (b.testBit j ||
        L.any fun z => decide (key z = 2 ∨ key z = 3) && decide (11 - z.val = j)) := by
  induction L generalizing b with
  | nil => simp [foldIy]
  | cons z L ih =>
    simp only [foldIy, List.foldl_cons, List.any_cons] at *
    rw [ih]
    by_cases hz : key z = 2 ∨ key z = 3
    · simp [hz, Nat.testBit_or, Nat.testBit_two_pow, Bool.or_assoc]
    · simp [hz]

lemma foldIx_lt (key : Fin 12 → ℕ) (L : List (Fin 12)) (a : ℕ) (ha : a < 2 ^ 12) :
    foldIx key L a < 2 ^ 12 := by
  induction L generalizing a with
  | nil => simpa [foldIx]
  | cons z L ih =>
    simp only [foldIx, List.foldl_cons]
    apply ih
    split
    · exact Nat.or_lt_two_pow ha (Nat.pow_lt_pow_right one_lt_two (by omega))
    · exact ha

lemma foldIy_lt (key : Fin 12 → ℕ) (L : List (Fin 12)) (b : ℕ) (hb : b < 2 ^ 12) :
    foldIy key L b < 2 ^ 12 := by
  induction L generalizing b with
  | nil => simpa [foldIy]
  | cons z L ih =>
    simp only [foldIy, List.foldl_cons]
    apply ih
    split
    · exact Nat.or_lt_two_pow hb (Nat.pow_lt_pow_right one_lt_two (by omega))
    · exact hb

lemma ixBit (key : Fin 12 → ℕ) (w : Fin 12) :
    (foldIx key (List.finRange 12) 0).testBit (11 - w.val) =
      decide (key w = 1 ∨ key w = 3) := by
  rw [foldIx_testBit, Nat.zero_testBit, Bool.false_or]
  by_cases h : key w = 1 ∨ key w = 3
  · rw [decide_eq_true h, List.any_eq_true]
    exact ⟨w, List.mem_finRange w, by simp [h]⟩
  · rw [decide_eq_false h, ← Bool.not_eq_true, List.any_eq_true]
    rintro ⟨z, hz, hzt⟩
    simp only [Bool.and_eq_true, decide_eq_true_eq] at hzt
    obtain ⟨hz1, hz2⟩ := hzt
    have hv : z.val = w.val := by
      have h1 := z.isLt
      have h2 := w.isLt
      omega
    exact h ((Fin.ext hv : z = w) ▸ hz1)

lemma iyBit (key : Fin 12 → ℕ) (w : Fin 12) :
    (foldIy key (List.finRange 12) 0).testBit (11 - w.val) =
      decide (key w = 2 ∨ key w = 3) := by
  rw [foldIy_testBit, Nat.zero_testBit, Bool.false_or]
  by_cases h : key w = 2 ∨ key w = 3
  · rw [decide_eq_true h, List.any_eq_true]
    exact ⟨w, List.mem_finRange w, by simp [h]⟩
  · rw [decide_eq_false h, ← Bool.not_eq_true, List.any_eq_true]
    rintro ⟨z, hz, hzt⟩
    simp only [Bool.and_eq_true, decide_eq_true_eq] at hzt
    obtain ⟨hz1, hz2⟩ := hzt
    have hv : z.val = w.val := by
      have h1 := z.isLt
      have h2 := w.isLt
      omega
    exact h ((Fin.ext hv : z = w) ▸ hz1)

lemma gridOfKey_eq (key : Fin 12 → ℕ) (hk : ∀ i, key i ≤ 3) :
    gridOfKey key = some (foldIx key (List.finRange 12) 0, foldIy key (List.finRange 12) 0) :=
  foldlM_mgsStep_eq key (List.finRange 12) 0 0 (fun z _ => hk z)

lemma pos_and_two_pow (x j : ℕ) : (0 < x &&& 2 ^ j) ↔ x.testBit j = true := by
  rw [Nat.and_two_pow]
  cases h : x.testBit j <;> simp [h, Nat.pos_pow_of_pos]

lemma i16_and_mask_natCast (A mask : ℕ) (hA : A < 65536) :
    i16_and_mask (A : ℤ) mask = A &&& mask := by
  unfold i16_and_mask
  congr 1
  rw [Int.emod_eq_of_lt (by positivity) (by exact_mod_cast hA)]
  exact Int.toNat_natCast A

lemma fromMGS_eq_decoded (m : MGSCoord) (hk : ∀ i, m.key i ≤ 3) :
    UTMCoord.fromMGS m =
      some (decodedUTM m.zone (foldIx m.key (List.finRange 12) 0)
        (foldIy m.key (List.finRange 12) 0)) := by
  unfold UTMCoord.fromMGS
  rw [gridOfKey_eq m.key hk]
  rfl

lemma gridIndices_decoded (zone A B : ℕ) (hA : A < 4096) (hB : B < 4096) :
    (decodedUTM zone A B).gridIndices = ((A : ℤ), (B : ℤ)) := by
  have hy0 : (if (decodedUTM zone A B).hemi = Hemisphere.South
      then (decodedUTM zone A B).y - 10000000 else (decodedUTM zone A B).y) =
      (2048 - (B : ℚ)) * 5000 := by
    by_cases hneg : (2048 - (B : ℚ)) * 5000 < 0
    · have hS : (decodedUTM zone A B).hemi = Hemisphere.South := by
        have h0 : (2048 - (B : ℚ)) < 0 := by nlinarith
        simp [decodedUTM, from_lat_num, h0]
      rw [hS, if_pos rfl]
      have hy : (decodedUTM zone A B).y = (2048 - (B : ℚ)) * 5000 + 10000000 := by
        simp [decodedUTM, hneg]
      rw [hy]
      ring
    · have hN : (decodedUTM zone A B).hemi = Hemisphere.North := by
        have h0 : ¬((2048 - (B : ℚ)) < 0) := by
          intro hc
          exact hneg (by nlinarith)
        simp [decodedUTM, from_lat_num, h0]
      rw [hN, if_neg (by simp)]
      simp [decodedUTM, hneg]
  have hx : (decodedUTM zone A B).x = ((A : ℚ) - 2048) * 5000 + 500000 := rfl
  simp only [UTMCoord.gridIndices]
  rw [hy0, hx]
  rw [show ((((A : ℚ) - 2048) * 5000 + 500000) - 500000) / 5000 + 2048 = (A : ℚ) by ring]
  rw [show (2048 : ℚ) - (2048 - (B : ℚ)) * 5000 / 5000 = (B : ℚ) by ring]
  rw [i16cast_natCast A (by omega), i16cast_natCast B (by omega)]

lemma fromUTM_key (u : UTMCoord) (A B : ℕ) (hgi : u.gridIndices = ((A : ℤ), (B : ℤ)))
    (hA : A < 4096) (hB : B < 4096) (z : Fin 12) :
    (MGSCoord.fromUTM u).key z =
      (if A.testBit (11 - z.val) then 1 else 0) +
        (if B.testBit (11 - z.val) then 2 else 0) := by
  simp only [MGSCoord.fromUTM, hgi]
  rw [i16_and_mask_natCast A _ (by omega), i16_and_mask_natCast B _ (by omega)]
  congr 1
  · by_cases h : A.testBit (11 - z.val)
    · rw [if_pos ((pos_and_two_pow _ _).mpr h), if_pos h]
    · rw [if_neg (fun hc => h ((pos_and_two_pow _ _).mp hc)), if_neg h]
  · by_cases h : B.testBit (11 - z.val)
    · rw [if_pos ((pos_and_two_pow _ _).mpr h), if_pos h]
    · rw [if_neg (fun hc => h ((pos_and_two_pow _ _).mp hc)), if_neg h]

lemma make_message_zones (projF : ℕ → Hemisphere → ℚ × ℚ → Option (ℚ × ℚ))
    (ll : LonLatCoord) (r : LonLatCoord × UTMCoord × MGSCoord)
    (hr : make_message projF ll = some r) :
    r.2.1.zone = u8cast (((⌊(r.1.lon + 180) / 6⌋ : ℤ) : ℚ) + 1) ∧
      r.2.2.zone = r.2.1.zone := by
  unfold make_message UTMCoord.fromLonLat at hr
  rcases hp : projF (lonlat_to_utm_zone ll.lon ll.lat).1
      (lonlat_to_utm_zone ll.lon ll.lat).2 (ll.lon, ll.lat) with _ | pt
  · rw [hp] at hr
    cases hr
  · rw [hp] at hr
    cases hr
    refine ⟨?_, rfl⟩
    rw [← floorQ_eq]
    rfl

-- ======================================================================
-- Claim theorems
-- ======================================================================

/-- C1: for every input supplied as UTM or MGS, the program converts it
fully to a geographic coordinate and re-derives the displayed UTM and MGS
from that geographic value, so for any projection capability the zone in
the UTM output equals floor((lon + 180) / 6) + 1 (cast to u8) computed
from the output point's longitude, and the MGS output zone equals it too
-- never the zone carried by the input. -/
theorem C1_canonical_zone (projF projB : ℕ → Hemisphere → ℚ × ℚ → Option (ℚ × ℚ))
    (m : MGSCoord) (u : UTMCoord) (r1 r2 : LonLatCoord × UTMCoord × MGSCoord)
    (h1 : from_mgs projF projB m = some r1)
    (h2 : from_utm projF projB u = some r2) :
    (r1.2.1.zone = u8cast (((⌊(r1.1.lon + 180) / 6⌋ : ℤ) : ℚ) + 1) ∧
      r1.2.2.zone = r1.2.1.zone) ∧
    (r2.2.1.zone = u8cast (((⌊(r2.1.lon + 180) / 6⌋ : ℤ) : ℚ) + 1) ∧
      r2.2.2.zone = r2.2.1.zone) := by
  constructor
  · unfold from_mgs at h1
    rcases hu : UTMCoord.fromMGS m with _ | utm
    · simp only [hu] at h1
      cases h1
    · simp only [hu] at h1
      rcases hll : LonLatCoord.fromUTM projB utm with _ | ll
      · simp only [hll] at h1
        cases h1
      · simp only [hll] at h1
        exact make_message_zones projF ll r1 h1
  · unfold from_utm at h2
    rcases hll : LonLatCoord.fromUTM projB u with _ | ll
    · simp only [hll] at h2
      cases h2
    · simp only [hll] at h2
      exact make_message_zones projF ll r2 h2

/-- Witness for C1: concrete MGS and UTM inputs carrying the non-canonical
zone 99 run through the pipelines with a concrete projection stand-in; the
displayed zones are 31, the zone of the output longitude 0, not 99. -/
theorem C1_canonical_zone_witness :
    from_mgs projZero projZero mgsInput99 = some rZero ∧
    from_utm projZero projZero utmInput99 = some rZero ∧
    rZero.2.1.zone = u8cast (((⌊(rZero.1.lon + 180) / 6⌋ : ℤ) : ℚ) + 1) ∧
    rZero.2.2.zone = rZero.2.1.zone := by
  have hd1 : UTMCoord.fromMGS mgsInput99 =
      some ⟨99, Hemisphere.North, -9740000, 10240000⟩ := by decide!
  have hd2 : LonLatCoord.fromUTM projZero ⟨99, Hemisphere.North, -9740000, 10240000⟩ =
      some ⟨0, 0⟩ := by decide!
  have hd4 : UTMCoord.fromLonLat projZero ⟨0, 0⟩ =
      some ⟨31, Hemisphere.North, 0, 0⟩ := by decide!
  have hd5 : MGSCoord.fromUTM ⟨31, Hemisphere.North, 0, 0⟩ = rZero.2.2 := by decide!
  have hd3 : make_message projZero ⟨0, 0⟩ = some rZero := by
    unfold make_message
    rw [hd4]
    simp only [hd5]
    rfl
  have h1 : from_mgs projZero projZero mgsInput99 = some rZero := by
    unfold from_mgs
    rw [hd1]
    simp only [hd2, hd3]
  have h2 : from_utm projZero projZero utmInput99 = some rZero := by
    have hd2u : LonLatCoord.fromUTM projZero utmInput99 = some ⟨0, 0⟩ := by decide!
    unfold from_utm
    rw [hd2u]
    exact hd3
  exact ⟨h1, h2, (C1_canonical_zone projZero projZero mgsInput99 utmInput99
    rZero rZero h1 h2).1⟩

/-- C2: for every MGSCoord whose 12 key digits are all in 0..3,
converting MGS to UTM and that UTM back to MGS returns exactly the same
zone and exactly the same 12-digit key. -/
theorem C2_mgs_utm_mgs_roundtrip (m : MGSCoord) (hk : ∀ i, m.key i ≤ 3) :
    ∃ u, UTMCoord.fromMGS m = some u ∧
      (MGSCoord.fromUTM u).zone = m.zone ∧ ∀ i, (MGSCoord.fromUTM u).key i = m.key i := by
  have hA : foldIx m.key (List.finRange 12) 0 < 4096 := by
    have := foldIx_lt m.key (List.finRange 12) 0 (by norm_num)
    norm_num at this
    exact this
  have hB : foldIy m.key (List.finRange 12) 0 < 4096 := by
    have := foldIy_lt m.key (List.finRange 12) 0 (by norm_num)
    norm_num at this
    exact this
  refine ⟨decodedUTM m.zone (foldIx m.key (List.finRange 12) 0)
    (foldIy m.key (List.finRange 12) 0), fromMGS_eq_decoded m hk, rfl, ?_⟩
  intro i
  rw [fromUTM_key _ _ _ (gridIndices_decoded m.zone _ _ hA hB) hA hB i]
  rw [ixBit, iyBit]
  have h4 : m.key i = 0 ∨ m.key i = 1 ∨ m.key i = 2 ∨ m.key i = 3 := by
    have := hk i
    omega
  rcases h4 with h | h | h | h <;> simp [h]

/-- Witness for C2: the key 033113131312 of the worked example in `help()`
(zone 14) has all digits in 0..3 and round-trips bit-exactly. -/
theorem C2_mgs_utm_mgs_roundtrip_witness :
    (∀ i, mgsW.key i ≤ 3) ∧
    ∃ u, UTMCoord.fromMGS mgsW = some u ∧
      (MGSCoord.fromUTM u).zone = mgsW.zone ∧
      ∀ i, (MGSCoord.fromUTM u).key i = mgsW.key i :=
  ⟨by decide, C2_mgs_utm_mgs_roundtrip mgsW (by decide)⟩

/-- C3 (failing-input evaluation): the valid UTM coordinate 14N 494999
2133666 round-trips through MGS to the northwest corner of its 5 km cell,
easting 490000 and northing 2135000, so the easting moves by 4999 m --
more than half the cell width of 2500 m -- and the reconstructed point is
the cell corner, not its centerpoint (which would be 492500, 2132500). -/
theorem C3_roundtrip_corner_not_center :
    (UTMCoord.fromMGS (MGSCoord.fromUTM utmC3)).map (fun u => (u.x, u.y, utmC3.x - u.x)) =
      some (490000, 2135000, 4999) ∧ ¬((4999 : ℚ) ≤ 2500) := by
  constructor
  · decide!
  · norm_num

/-- C4 counterexample: `Hemisphere::from_lat` classifies negative infinity
as South, not North as the claim states, because the IEEE comparison
-inf < 0.0 is true. -/
theorem C4_from_lat_neg_inf_counterexample :
    Hemisphere.from_lat F64.negInf ≠ Hemisphere.North := by decide

/-- C4 amended: `Hemisphere::from_lat` is total and returns South exactly
when v < 0.0 -- so South for every negative finite value and for negative
infinity, and North for 0.0, positive values, NaN and positive
infinity. -/
theorem C4_from_lat_amended :
    (∀ q : ℚ, Hemisphere.from_lat (F64.num q) =
      if q < 0 then Hemisphere.South else Hemisphere.North) ∧
    Hemisphere.from_lat F64.nan = Hemisphere.North ∧
    Hemisphere.from_lat F64.inf = Hemisphere.North ∧
    Hemisphere.from_lat F64.negInf = Hemisphere.South :=
  ⟨from_lat_num, rfl, rfl, rfl⟩

/-- C5 (failing-input evaluation): `MGSCoord::from_u8_and_str` on the
length-12 string 444444444444 succeeds and produces a key whose first
digit is 4, outside 0..3, violating the claimed invariant: the code reads
digits with radix 10 although its own panic message says digits must be
in 0..3. -/
theorem C5_digit_invariant_violated :
    (MGSCoord.from_u8_and_str 47 (List.replicate 12 '4')).map (fun m => m.key 0) =
      some 4 ∧ ¬((4 : ℕ) ≤ 3) := by
  constructor
  · decide!
  · omega

/-- C6 (failing-input evaluation): a length-12 key containing the
non-base-4 digit 7 is not rejected at construction --
`MGSCoord::from_u8_and_str` accepts it (radix-10 digit parsing) -- and the
MGS-to-UTM conversion is then attempted and panics on the digit. -/
theorem C6_nonbase4_not_rejected_at_construction :
    (MGSCoord.from_u8_and_str 47 ('1' :: List.replicate 11 '7')).isSome = true ∧
    (MGSCoord.from_u8_and_str 47 ('1' :: List.replicate 11 '7')).bind UTMCoord.fromMGS =
      none := by
  decide!

/-- C7: zone derivation computes floor((lon + 180) / 6) + 1 cast to an
8-bit unsigned integer; in particular longitude -180 gives zone 1,
longitude 179.999 gives zone 60, and longitude 0 gives zone 31. -/
theorem C7_zone_formula :
    (∀ lon lat : ℚ,
      (lonlat_to_utm_zone lon lat).1 = u8cast (((⌊(lon + 180) / 6⌋ : ℤ) : ℚ) + 1)) ∧
    (lonlat_to_utm_zone (-180) 0).1 = 1 ∧
    (lonlat_to_utm_zone (179999 / 1000) 0).1 = 60 ∧
    (lonlat_to_utm_zone 0 0).1 = 31 := by
  refine ⟨fun lon lat => ?_, by decide!, by decide!, by decide!⟩
  rw [← floorQ_eq]
  rfl

/-- C8: `LonLatCoord::new` errors exactly when the longitude is outside
[-180, 180] or the latitude outside [-90, 90], bounds inclusive:
(180, 0) and (0, -90) succeed, (200, 0) fails, and the lon-lat pipeline
produces no UTM or MGS output from the failing input. -/
theorem C8_new_range :
    (∀ lon lat : ℚ, exceptOk (LonLatCoord.new lon lat) = false ↔
      (lon < -180 ∨ 180 < lon ∨ lat < -90 ∨ 90 < lat)) ∧
    exceptOk (LonLatCoord.new 180 0) = true ∧
    exceptOk (LonLatCoord.new 0 (-90)) = true ∧
    exceptOk (LonLatCoord.new 200 0) = false ∧
    (∀ projF, from_ll projF 200 0 = none) := by
  refine ⟨fun lon lat => ?_, by decide!, by decide!, by decide!, fun projF => rfl⟩
  have hiff : (lon < -180 ∨ 180 < lon ∨ lat < -90 ∨ 90 < lat) ↔
      (¬(-180 ≤ lon ∧ lon ≤ 180) ∨ ¬(-90 ≤ lat ∧ lat ≤ 90)) := by
    simp only [not_and_or, not_le]
    tauto
  unfold LonLatCoord.new
  by_cases hc : (¬(-180 ≤ lon ∧ lon ≤ 180) ∨ ¬(-90 ≤ lat ∧ lat ≤ 90))
  · rw [if_pos hc]
    exact iff_of_true rfl (hiff.mpr hc)
  · rw [if_neg hc]
    exact iff_of_false (by simp [exceptOk]) (fun hr => hc (hiff.mp hr))

/-- C9 counterexample: for the finite UTM input 14N with easting -9742500
the shifted grid coordinate x + 2048 is -0.5; its mathematical floor is
-1, but the code's `as i16` cast truncates toward zero and produces 0, so
ix is not the floor of the shifted coordinate for every finite input. -/
theorem C9_grid_floor_counterexample :
    utmC9.gridIndices.1 = 0 ∧ ⌊(utmC9.x - 500000) / 5000 + 2048⌋ = -1 ∧
      utmC9.gridIndices.1 ≠ ⌊(utmC9.x - 500000) / 5000 + 2048⌋ := by
  have h2 : ⌊(utmC9.x - 500000) / 5000 + 2048⌋ = -1 := by
    rw [← floorQ_eq]
    decide!
  have h1 : utmC9.gridIndices.1 = 0 := by decide!
  refine ⟨h1, h2, ?_⟩
  rw [h1, h2]
  omega

/-- C9 amended: the grid indices are the saturating Rust `as i16`
truncation toward zero of the shifted coordinates; whenever both shifted
coordinates are nonnegative and below 32768 -- in particular on a zone's
practical extent -- they equal the mathematical floors ix = floor(x + 2048)
and iy = floor(2048 - y). -/
theorem C9_grid_trunc_amended (u : UTMCoord)
    (hx0 : 0 ≤ (u.x - 500000) / 5000 + 2048)
    (hx1 : (u.x - 500000) / 5000 + 2048 < 32768)
    (hy0 : 0 ≤ 2048 - (if u.hemi = Hemisphere.South then u.y - 10000000 else u.y) / 5000)
    (hy1 : 2048 - (if u.hemi = Hemisphere.South then u.y - 10000000 else u.y) / 5000 < 32768) :
    u.gridIndices =
      (⌊(u.x - 500000) / 5000 + 2048⌋,
       ⌊2048 - (if u.hemi = Hemisphere.South then u.y - 10000000 else u.y) / 5000⌋) := by
  simp only [UTMCoord.gridIndices]
  rw [i16cast_eq_floor hx0 hx1, i16cast_eq_floor hy0 hy1]

/-- Witness for the amended C9: at 14N 494999 2133666 the shifted
coordinates are nonnegative and in range, and the grid indices equal the
floors, (2046, 1621). -/
theorem C9_grid_trunc_amended_witness : utmC9w.gridIndices = (2046, 1621) := by
  refine (C9_grid_trunc_amended utmC9w ?_ ?_ ?_ ?_).trans ?_
  · decide!
  · decide!
  · decide!
  · decide!
  · rw [← floorQ_eq, ← floorQ_eq]
    decide!

/-- C10: when the UTM zone token does not end in N or S, the parsed
hemisphere defaults to North. -/
theorem C10_zone_token_default_north (cs : List Char) (z : ℕ) (h : Hemisphere)
    (hok : parse_zone_hemi cs = Except.ok (z, h))
    (hn : cs.getLastD ' ' ≠ 'N') (hs : cs.getLastD ' ' ≠ 'S') :
    h = Hemisphere.North := by
  have hc : ¬(cs.getLastD ' ' = 'N' ∨ cs.getLastD ' ' = 'S') := by
    rintro (hcN | hcS)
    · exact hn hcN
    · exact hs hcS
  unfold parse_zone_hemi at hok
  by_cases hlen : 1 ≤ cs.length ∧ cs.length ≤ 3
  · rw [if_pos hlen, if_neg hc] at hok
    rcases hpu : parse_u8 cs with _ | zone
    · rw [hpu] at hok
      cases hok
    · rw [hpu] at hok
      cases hok
      rfl
  · rw [if_neg hlen] at hok
    cases hok

/-- Witness for C10: the zone token 14, whose last character is neither N
nor S, parses to zone 14 with hemisphere North. -/
theorem C10_zone_token_default_north_witness :
    parse_zone_hemi ['1', '4'] = Except.ok (14, Hemisphere.North) ∧
    Hemisphere.North = Hemisphere.North := by
  have hok : parse_zone_hemi ['1', '4'] = Except.ok (14, Hemisphere.North) := by
    have : (parse_zone_hemi ['1', '4']).toOption = some (14, Hemisphere.North) := by decide!
    rcases hp : parse_zone_hemi ['1', '4'] with e | v
    · rw [hp] at this
      cases this
    · rw [hp] at this
      simp only [Except.toOption] at this
      cases this
      rfl
  exact ⟨hok, C10_zone_token_default_north ['1', '4'] 14 Hemisphere.North hok
    (by decide) (by decide)⟩
